import Mathlib

/-!
Verification of the llm-cache semantic cache worker (`src/index.ts`).

The worker sits in front of an OpenAI-compatible chat-completion endpoint.
We shallowly embed the request handlers as pure functions from their inputs
(the vector-index query result, the KV lookup, the captured upstream reads,
the freshly minted id) to an ordered trace of observable effects, and prove
or refute the frozen specification claims about them.
-/

namespace LlmCache

/-- Character class of the JavaScript regular-expression escape `\s`
(whitespace), as used by `/\S+\s*/g` and `/"([^"]*)"/` in `src/index.ts`. -/
def isJsSpace (c : Char) : Bool :=
  c == ' ' || c == '\t' || c == '\n' || c == '\r' || c == '\x0B' || c == '\x0C' ||
  c == ' ' || c == ' ' || c == ' ' || c == ' ' || c == ' ' ||
  c == ' ' || c == ' ' || c == ' ' || c == ' ' || c == ' ' ||
  c == ' ' || c == ' ' || c == ' ' || c == ' ' || c == ' ' ||
  c == ' ' || c == ' ' || c == '　' || c == '﻿'

/-- List-level core of `extractWord` (`src/index.ts` lines 56-59):
`chunk.match(/"([^"]*)"/)` returns the text between the first double quote
and the next double quote, or the empty string when there is no such pair. -/
def extractWordL (s : List Char) : List Char :=
  match s.dropWhile (fun c => c != '"') with
  | [] => []
  | _ :: rest =>
    if rest.any (fun c => c == '"') then rest.takeWhile (fun c => c != '"') else []

/-- `extractWord` (`src/index.ts` lines 56-59) on strings. -/
def extractWord (s : String) : String :=
  String.mk (extractWordL s.data)

/-- JavaScript `String.prototype.split("\n")`: the segments of a character
list between occurrences of `'\n'`, keeping empty segments. -/
def splitLines : List Char → List (List Char)
  | [] => [[]]
  | c :: cs =>
    if c = '\n' then [] :: splitLines cs
    else
      match splitLines cs with
      | [] => [[c]]
      | l :: ls => (c :: l) :: ls

/-- The parsing step of `handleCacheOrDiscard` (`src/index.ts` lines 135-138):
split the captured raw data on newlines, apply `extractWord` to every line and
concatenate the results. -/
def parseCapture (raw : String) : String :=
  String.mk (((splitLines raw.data).map extractWordL).flatten)

/-- Fuelled tokenizer implementing the JavaScript global match
`cachedContent.match(/\S+\s*/g)` (`src/index.ts` line 268): each match is a
maximal run of non-whitespace characters followed by the maximal run of
whitespace after it.  The fuel is only a structural-recursion device; it is
always called with enough fuel. -/
def tokensGo : Nat → List Char → List (List Char)
  | 0, _ => []
  | _, [] => []
  | fuel + 1, c :: cs =>
    if isJsSpace c then tokensGo fuel cs
    else
      (c :: (cs.takeWhile (fun x => !isJsSpace x) ++
          (cs.dropWhile (fun x => !isJsSpace x)).takeWhile isJsSpace)) ::
        tokensGo fuel ((cs.dropWhile (fun x => !isJsSpace x)).dropWhile isJsSpace)

/-- All matches of `/\S+\s*/g` on a character list, in order. -/
def tokens (l : List Char) : List (List Char) :=
  tokensGo l.length l

/-- JavaScript `s.match(/\S+\s*/g)`: `none` models the `null` result returned
when the string contains no non-whitespace character. -/
def jsMatchAll (s : String) : Option (List String) :=
  match tokens s.data with
  | [] => none
  | t :: ts => some ((t :: ts).map String.mk)

/-- Observable effects of a request handler, in program order.  KV reads and
writes are the ContentStore, vector operations are the VectorIndex, SSE
effects are frames written to the client (`sseChunk s` is a
`chat.completion.chunk` whose `choices[0].delta.content` is `s`), and
`respondJson s` is a non-streaming JSON response whose answer text is `s`. -/
inductive Effect where
  | vecQuery : Effect
  | kvGet : String → Effect
  | kvPut : String → String → Effect
  | vecInsert : String → Effect
  | upstreamCall : Effect
  | sseChunk : String → Effect
  | sseDone : Effect
  | respondJson : String → Effect
deriving DecidableEq

/-- One match returned by `VECTORIZE_INDEX.query`. -/
structure VecMatch where
  id : String
  score : ℚ
deriving DecidableEq

/-- Result of `VECTORIZE_INDEX.query(vector, { topK: 1 })`.  The source field
is called `matches`, which is a Lean keyword, hence the prime. -/
structure QueryResult where
  count : Nat
  matches' : List VecMatch
deriving DecidableEq

/-- `MATCH_THRESHOLD = 0.9` (`src/index.ts` line 10), as the rational 9/10. -/
def MATCH_THRESHOLD : ℚ := mkRat 9 10

/-- Environment of one request: the responses of the external collaborators
and the fresh id minted by `nanoid()`.  `upstreamReads` are the decoded reads
delivered by the (teed) upstream stream; `streamOk` is whether
`ManagedStream.readToEnd` finished without a stream error; `upstreamContent`
is `chatCompletion.choices[0].message.content` of a non-streaming upstream
call. -/
structure Env where
  query : QueryResult
  kv : String → Option String
  upstreamReads : List String
  streamOk : Bool
  upstreamContent : String
  freshId : String

/-- Outcome of a handler's foreground flow: the effects it performed, and
whether it terminated by throwing a runtime error. -/
structure Outcome where
  effects : List Effect
  threw : Bool
deriving DecidableEq

/-- The cache-miss condition of `src/index.ts` lines 181-185 (and, with
`noCache := false`, line 301):
`query.count === 0 || query.matches[0].score < MATCH_THRESHOLD || request.noCache`.
`none` models the `TypeError` thrown by `query.matches[0]` when `count` is
nonzero but `matches` is empty; `||` short-circuits, so `count === 0` avoids
the access. -/
def cacheMissDecision (q : QueryResult) (noCache : Bool) : Option Bool :=
  if q.count = 0 then some true
  else
    match q.matches'.head? with
    | none => none
    | some m => some (decide (m.score < MATCH_THRESHOLD) || noCache)

/-- Background commit `handleCacheOrDiscard` (`src/index.ts` lines 124-147):
after the capture ends, if the stream ended cleanly the extracted text is
written to KV under a fresh id and — when a vector was passed — the vector is
inserted afterwards; otherwise nothing is written. -/
def handleCacheOrDiscard (streamOk : Bool) (raw : String) (freshId : String)
    (hasVector : Bool) : List Effect :=
  if streamOk then
    Effect.kvPut freshId (parseCapture raw) ::
      (if hasVector then [Effect.vecInsert freshId] else [])
  else []

/-- Foreground relay of a streaming miss (`src/index.ts` lines 196-226): one
`chat.completion.chunk` per upstream read, whose delta content is
`extractWord` of the decoded read, then the `[DONE]` frame. -/
def relayChunks (reads : List String) : List Effect :=
  reads.map (fun r => Effect.sseChunk (extractWord r)) ++ [Effect.sseDone]

/-- Result of the streaming miss path (`src/index.ts` lines 180-227):
foreground relays upstream and the background commit receives the vector. -/
def streamMissResult (env : Env) : Outcome × List Effect :=
  (⟨Effect.vecQuery :: Effect.upstreamCall :: relayChunks env.upstreamReads, false⟩,
   handleCacheOrDiscard env.streamOk (String.join env.upstreamReads) env.freshId true)

/-- Result of the streaming orphan-degrade path (`src/index.ts` lines
237-266): a hit whose KV content is missing re-calls upstream; the background
commit is invoked WITHOUT the vector. -/
def streamDegradeResult (matchedId : String) (env : Env) : Outcome × List Effect :=
  (⟨Effect.vecQuery :: Effect.kvGet matchedId :: Effect.upstreamCall ::
      relayChunks env.upstreamReads, false⟩,
   handleCacheOrDiscard env.streamOk (String.join env.upstreamReads) env.freshId false)

/-- `handleStreamingRequest` (`src/index.ts` lines 155-285) as a pair of the
foreground outcome and the background commit trace. -/
def handleStreamingRequest (noCache : Bool) (env : Env) : Outcome × List Effect :=
  if cacheMissDecision env.query noCache = some true then streamMissResult env
  else
    match env.query.matches'.head? with
    | none => (⟨[Effect.vecQuery], true⟩, [])
    | some m =>
      match env.kv m.id with
      | none => streamDegradeResult m.id env
      | some s =>
        if s = "" then streamDegradeResult m.id env
        else
          match jsMatchAll s with
          | none => (⟨[Effect.vecQuery, Effect.kvGet m.id], true⟩, [])
          | some toks =>
            (⟨Effect.vecQuery :: Effect.kvGet m.id :: toks.map Effect.sseChunk, false⟩,
             [])

/-- Result of the non-streaming miss path (`src/index.ts` lines 301-318):
upstream call, then `VECTORIZE_INDEX.insert`, then `llmcache.put`, then the
JSON response. -/
def nsMissResult (env : Env) : Outcome :=
  ⟨[Effect.vecQuery, Effect.upstreamCall, Effect.vecInsert env.freshId,
    Effect.kvPut env.freshId env.upstreamContent,
    Effect.respondJson env.upstreamContent], false⟩

/-- Result of the non-streaming orphan-repair path (`src/index.ts` lines
327-335): upstream call, then `llmcache.put` under the matched (orphan) id,
no vector insert. -/
def nsRepairResult (matchedId : String) (env : Env) : Outcome :=
  ⟨[Effect.vecQuery, Effect.kvGet matchedId, Effect.upstreamCall,
    Effect.kvPut matchedId env.upstreamContent,
    Effect.respondJson env.upstreamContent], false⟩

/-- `handleNonStreamingRequest` (`src/index.ts` lines 287-343).  Note that
its miss condition (line 301) never consults `noCache`. -/
def handleNonStreamingRequest (env : Env) : Outcome :=
  if cacheMissDecision env.query false = some true then nsMissResult env
  else
    match env.query.matches'.head? with
    | none => ⟨[Effect.vecQuery], true⟩
    | some m =>
      match env.kv m.id with
      | none => nsRepairResult m.id env
      | some s =>
        if s = "" then nsRepairResult m.id env
        else ⟨[Effect.vecQuery, Effect.kvGet m.id, Effect.respondJson s], false⟩

/-- Router `app.post("/chat/completions", ...)` (`src/index.ts` lines
345-355): `request.stream` selects the handler; `noCache` only reaches the
streaming handler. -/
def chatCompletions (stream noCache : Bool) (env : Env) : Outcome × List Effect :=
  if stream then handleStreamingRequest noCache env
  else (handleNonStreamingRequest env, [])

/-- Content-before-vector checker: scanning the trace left to right, every
`vecInsert id` must be preceded by a `kvPut id _`. -/
def cbvGo (putIds : List String) : List Effect → Bool
  | [] => true
  | Effect.kvPut i _ :: rest => cbvGo (i :: putIds) rest
  | Effect.vecInsert i :: rest => putIds.contains i && cbvGo putIds rest
  | _ :: rest => cbvGo putIds rest

/-- A trace satisfies content-before-vector when every vector insert is
preceded by a content write under the same id. -/
def contentBeforeVector (tr : List Effect) : Bool :=
  cbvGo [] tr

/-- Concatenation of the `delta.content` fields of the SSE chunks of a trace,
in order. -/
def chunkConcat (tr : List Effect) : String :=
  String.join (tr.filterMap fun e =>
    match e with
    | Effect.sseChunk s => some s
    | _ => none)

/-- Modelled from the spec: the wire encoding of one upstream streaming chunk
whose `delta.content` is `t`, as it reaches the worker after the `OpenAIStream`
transformation (a library outside `src/`): one line whose first
double-quoted substring is the content.  This is the format assumed by
`extractWord` and by the line-splitting of `handleCacheOrDiscard`. -/
def encodeFrame (t : String) : String :=
  "0:\"" ++ t ++ "\"\n"

/-- One chat message `(role, content)`. -/
structure ChatMessage where
  role : String
  content : String
deriving DecidableEq

/-- JavaScript `Array.prototype.join("\n")`. -/
def joinWithNewline : List String → String
  | [] => ""
  | a :: as => as.foldl (fun acc x => acc ++ "\n" ++ x) a

/-- `parseMessagesToString` (`src/index.ts` lines 61-65):
`messages.map(m => role + ": " + content).join("\n")`. -/
def parseMessagesToString (messages : List ChatMessage) : String :=
  joinWithNewline (messages.map fun m => m.role ++ ": " ++ m.content)

/-- Reference definition written from the spec's words (§3, Glossary): the
strings `"<role>: <content>"` for each message, joined with `"\n"` in message
order. -/
def specFlattenedPrompt : List ChatMessage → String
  | [] => ""
  | [m] => m.role ++ ": " ++ m.content
  | m :: m2 :: ms => m.role ++ ": " ++ m.content ++ "\n" ++ specFlattenedPrompt (m2 :: ms)

/-- Trace predicate: no `vecInsert` effect occurs in the trace. -/
def noVecInsert (tr : List Effect) : Bool :=
  tr.all fun e =>
    match e with
    | Effect.vecInsert _ => false
    | _ => true

/-- Trace predicate: every `kvPut` effect in the trace writes under `id`. -/
def putsOnlyTo (id : String) (tr : List Effect) : Bool :=
  tr.all fun e =>
    match e with
    | Effect.kvPut i _ => i == id
    | _ => true

/-- Concrete environment: empty index, non-streaming upstream answer `"hi"`,
fresh id `"n1"`. -/
def envC1 : Env :=
  ⟨⟨0, []⟩, fun _ => none, [], true, "hi", "n1"⟩

/-- Concrete environment: one match with score 0.95 and cached content
`"cached"` under id `"v0"`. -/
def envC3 : Env :=
  ⟨⟨1, [⟨"v0", mkRat 95 100⟩]⟩, fun i => if i = "v0" then some "cached" else none,
    ["0:\"x\"\n"], true, "up", "f3"⟩

/-- Concrete environment: one match with score 0.95 and cached content
`"Hello world"` under id `"v0"`. -/
def envC4 : Env :=
  ⟨⟨1, [⟨"v0", mkRat 95 100⟩]⟩, fun i => if i = "v0" then some "Hello world" else none,
    [], true, "up", "f4"⟩

/-- Concrete environment: empty index and a single upstream read that carries
two coalesced frames (contents `"a"` and `"b"`). -/
def envC5 : Env :=
  ⟨⟨0, []⟩, fun _ => none, [encodeFrame "a" ++ encodeFrame "b"], true, "up", "f5"⟩

/-- Concrete environment: empty index and frame-aligned upstream reads with
contents `"Hello "` and `"world"`. -/
def envC5w : Env :=
  ⟨⟨0, []⟩, fun _ => none, [encodeFrame "Hello ", encodeFrame "world"], true, "up", "f5"⟩

/-- Concrete environment: one match with score 0.95 whose content is missing
from the KV store. -/
def envC7 : Env :=
  ⟨⟨1, [⟨"v0", mkRat 95 100⟩]⟩, fun _ => none, ["0:\"y\"\n"], true, "uc", "f7"⟩

/-- Concrete environment: one match with score 0.95 whose stored content is
the empty string. -/
def envC9 : Env :=
  { query := ⟨1, [⟨"v0", mkRat 95 100⟩]⟩,
    kv := fun i => if i = "v0" then some "" else none,
    upstreamReads := ["0:\"hi\"\n"], streamOk := true,
    upstreamContent := "up", freshId := "f9" }

/-- Concrete environment: one match with score 0.95 whose stored content is a
single space (non-empty, all whitespace). -/
def envC9w : Env :=
  ⟨⟨1, [⟨"v0", mkRat 95 100⟩]⟩, fun i => if i = "v0" then some " " else none,
    ["0:\"hi\"\n"], true, "up", "f9"⟩

lemma mk_append_mk (a b : List Char) : String.mk a ++ String.mk b = String.mk (a ++ b) :=
  rfl

lemma mk_data (s : String) : String.mk s.data = s :=
  rfl

lemma join_foldl_mk (ll : List (List Char)) :
    ∀ acc : List Char,
      List.foldl (fun r s => r ++ s) (String.mk acc) (ll.map String.mk) =
        String.mk (acc ++ ll.flatten) := by
  induction ll with
  | nil => intro acc; simp
  | cons a as ih =>
    intro acc
    simp only [List.map_cons, List.foldl_cons, mk_append_mk, List.flatten_cons]
    rw [ih (acc ++ a), List.append_assoc]

lemma join_map_mk (ll : List (List Char)) :
    String.join (ll.map String.mk) = String.mk ll.flatten := by
  have h := join_foldl_mk ll []
  simpa [String.join] using h

lemma dropWhile_until_quote (l t : List Char) (h : l.all (fun c => c != '"') = true) :
    (l ++ '"' :: t).dropWhile (fun c => c != '"') = '"' :: t := by
  induction l with
  | nil => simp [List.dropWhile_cons]
  | cons a as ih =>
    simp only [List.all_cons, Bool.and_eq_true] at h
    simp [List.dropWhile_cons, h.1, ih h.2]

lemma takeWhile_until_quote (l t : List Char) (h : l.all (fun c => c != '"') = true) :
    (l ++ '"' :: t).takeWhile (fun c => c != '"') = l := by
  induction l with
  | nil => simp [List.takeWhile_cons]
  | cons a as ih =>
    simp only [List.all_cons, Bool.and_eq_true] at h
    simp [List.takeWhile_cons, h.1, ih h.2]

lemma extractWord_encodeFrame (t : String)
    (h : t.data.all (fun c => c != '"') = true) :
    extractWord (encodeFrame t) = t := by
  have hd : (encodeFrame t).data = ['0', ':'] ++ '"' :: (t.data ++ '"' :: ['\n']) := by
    show ("0:\"" ++ t ++ "\"\n").data = _
    rw [String.data_append, String.data_append]
    simp
  unfold extractWord extractWordL
  rw [hd, dropWhile_until_quote _ _ (by decide)]
  simp only []
  have hany : (t.data ++ '"' :: ['\n']).any (fun c => c == '"') = true := by
    simp [List.any_append]
  rw [if_pos hany, takeWhile_until_quote _ _ h, mk_data]

lemma tokensGo_flatten :
    ∀ (fuel : Nat) (l : List Char), l.length ≤ fuel →
      (tokensGo fuel l).flatten = l.dropWhile isJsSpace := by
  intro fuel
  induction fuel with
  | zero =>
    intro l hl
    have hnil : l = [] := List.length_eq_zero.mp (Nat.le_zero.mp hl)
    subst hnil
    rfl
  | succ n ih =>
    intro l hl
    match l with
    | [] => rfl
    | c :: cs =>
      by_cases hc : isJsSpace c = true
      · rw [show tokensGo (n + 1) (c :: cs) = tokensGo n cs from by simp [tokensGo, hc]]
        rw [ih cs (Nat.le_of_succ_le_succ hl)]
        rw [List.dropWhile_cons_of_pos hc]
      · have hcf : isJsSpace c = false := by
          exact Bool.not_eq_true _ ▸ Bool.eq_false_iff.mpr hc
        have hstep : tokensGo (n + 1) (c :: cs) =
            (c :: (cs.takeWhile (fun x => !isJsSpace x) ++
              (cs.dropWhile (fun x => !isJsSpace x)).takeWhile isJsSpace)) ::
            tokensGo n ((cs.dropWhile (fun x => !isJsSpace x)).dropWhile isJsSpace) := by
          simp [tokensGo, hcf]
        rw [hstep]
        have hlen : (((cs.dropWhile (fun x => !isJsSpace x)).dropWhile isJsSpace)).length ≤ n := by
          calc ((cs.dropWhile (fun x => !isJsSpace x)).dropWhile isJsSpace).length
              ≤ (cs.dropWhile (fun x => !isJsSpace x)).length :=
                (List.dropWhile_sublist _).length_le
            _ ≤ cs.length := (List.dropWhile_sublist _).length_le
            _ ≤ n := Nat.le_of_succ_le_succ hl
        rw [List.flatten_cons, ih _ hlen, List.dropWhile_idempotent]
        rw [List.dropWhile_cons_of_neg (by simp [hcf])]
        rw [List.cons_append, List.append_assoc, List.takeWhile_append_dropWhile,
          List.takeWhile_append_dropWhile]

lemma tokensGo_eq_nil_of_all_space :
    ∀ (fuel : Nat) (l : List Char), l.all isJsSpace = true → tokensGo fuel l = [] := by
  intro fuel
  induction fuel with
  | zero => intro l _; cases l <;> rfl
  | succ n ih =>
    intro l hl
    match l with
    | [] => rfl
    | c :: cs =>
      simp only [List.all_cons, Bool.and_eq_true] at hl
      simp [tokensGo, hl.1, ih cs hl.2]

lemma jsMatchAll_eq_none_of_all_space (s : String) (h : s.data.all isJsSpace = true) :
    jsMatchAll s = none := by
  unfold jsMatchAll tokens
  rw [tokensGo_eq_nil_of_all_space _ _ h]

lemma relay_filterMap (reads : List String) :
    (relayChunks reads).filterMap (fun e =>
      match e with
      | Effect.sseChunk s => some s
      | _ => none) = reads.map extractWord := by
  unfold relayChunks
  induction reads with
  | nil => rfl
  | cons r rs ih =>
    simp only [List.map_cons, List.cons_append, List.filterMap_cons] at *
    rw [ih]

lemma chunkConcat_relayChunks (reads : List String) :
    chunkConcat (relayChunks reads) = String.join (reads.map extractWord) := by
  unfold chunkConcat
  rw [relay_filterMap]

lemma foldl_join_pull (rest : List String) :
    ∀ x y : String,
      rest.foldl (fun acc z => acc ++ "\n" ++ z) (x ++ y) =
        x ++ rest.foldl (fun acc z => acc ++ "\n" ++ z) y := by
  induction rest with
  | nil => intro x y; rfl
  | cons r rs ih =>
    intro x y
    simp only [List.foldl_cons]
    rw [String.append_assoc x y "\n", String.append_assoc x (y ++ "\n") r, ih]

lemma joinWithNewline_cons_cons (a b : String) (rest : List String) :
    joinWithNewline (a :: b :: rest) = a ++ "\n" ++ joinWithNewline (b :: rest) := by
  show (b :: rest).foldl (fun acc z => acc ++ "\n" ++ z) a = _
  simp only [List.foldl_cons]
  exact foldl_join_pull rest (a ++ "\n") b

lemma map_extractWord_encodeFrame (ts : List String)
    (h : ∀ t ∈ ts, t.data.all (fun c => c != '"') = true) :
    ts.map (fun t => extractWord (encodeFrame t)) = ts := by
  induction ts with
  | nil => rfl
  | cons t rest ih =>
    simp only [List.map_cons]
    rw [extractWord_encodeFrame t (h t (by simp)),
      ih (fun u hu => h u (by simp [hu]))]

/-- C1, counterexample: on the NON-streaming miss commit path
(`src/index.ts` lines 302-307) the `VECTORIZE_INDEX.insert` completes before
the `llmcache.put` begins, so the content write does not precede the vector
insert there. -/
theorem nonStreamingMiss_vector_before_content :
    (handleNonStreamingRequest envC1).effects =
      [Effect.vecQuery, Effect.upstreamCall, Effect.vecInsert "n1",
       Effect.kvPut "n1" "hi", Effect.respondJson "hi"] ∧
    contentBeforeVector (handleNonStreamingRequest envC1).effects = false := by
  decide

/-- C1, amended: on the streaming background commit path
(`handleCacheOrDiscard`) the ContentStore write always precedes the
VectorIndex insert of the same id; every background commit trace satisfies
`contentBeforeVector`. -/
theorem background_commit_content_before_vector (ok hasVec : Bool)
    (raw freshId : String) :
    contentBeforeVector (handleCacheOrDiscard ok raw freshId hasVec) = true := by
  cases ok <;> cases hasVec <;>
    simp [handleCacheOrDiscard, contentBeforeVector, cbvGo]

/-- C2, counterexample: a capture that ends cleanly but contains no quoted
token (raw data `"x"`) extracts the EMPTY string, yet the background commit
still writes the entry (empty content to KV, then the vector) instead of
discarding it. -/
theorem background_commit_caches_empty_extraction :
    parseCapture "x" = "" ∧
    handleCacheOrDiscard true "x" "id0" true =
      [Effect.kvPut "id0" "", Effect.vecInsert "id0"] := by
  decide

/-- C2, amended: after a streaming request the background commit writes a new
cache entry iff the captured upstream stream ended cleanly
(`ManagedStream.readToEnd` returned with `isDone` true); the extracted text
is written even when it is empty, and extraction itself never fails. -/
theorem admission_iff_clean_stream_end (ok hasVec : Bool) (raw freshId : String) :
    ((handleCacheOrDiscard ok raw freshId hasVec ≠ []) ↔ ok = true) ∧
    Effect.kvPut freshId (parseCapture raw) ∈
      handleCacheOrDiscard true raw freshId hasVec := by
  cases ok <;> cases hasVec <;> simp [handleCacheOrDiscard]

/-- C3, counterexample: the NON-streaming handler never consults `noCache`
(`src/index.ts` line 301): with `noCache = true` and a high-scoring match it
still serves the cached content and never calls upstream. -/
theorem nonStreaming_ignores_noCache :
    (chatCompletions false true envC3).1.effects =
      [Effect.vecQuery, Effect.kvGet "v0", Effect.respondJson "cached"] ∧
    Effect.upstreamCall ∉ (chatCompletions false true envC3).1.effects := by
  decide

/-- C3, amended: on the STREAMING path, `noCache = true` forces the miss path
regardless of the query result (for any well-formed query), so upstream is
called and the background commit still writes the new entry. -/
theorem streaming_noCache_forces_miss (env : Env)
    (hwf : env.query.count = env.query.matches'.length) :
    handleStreamingRequest true env = streamMissResult env := by
  unfold handleStreamingRequest
  by_cases h0 : env.query.count = 0
  · simp [cacheMissDecision, h0]
  · cases hm : env.query.matches' with
    | nil =>
      rw [hm] at hwf
      simp at hwf
      exact absurd hwf h0
    | cons m ms => simp [cacheMissDecision, h0, hm]

/-- C3, witness: the amended theorem applied to the concrete environment
`envC3` (score 0.95 above the threshold, content cached). -/
theorem streaming_noCache_forces_miss_witness :
    handleStreamingRequest true envC3 = streamMissResult envC3 :=
  streaming_noCache_forces_miss envC3 (by decide)

/-- C4, counterexample: on a streaming HIT the handler emits one chunk per
`\S+\s*` token of the cached content but NO terminal `[DONE]` frame
(`src/index.ts` lines 270-284 write no `[DONE]`). -/
theorem streaming_hit_omits_done_frame :
    (handleStreamingRequest false envC4).1.effects =
      [Effect.vecQuery, Effect.kvGet "v0", Effect.sseChunk "Hello ",
       Effect.sseChunk "world"] ∧
    Effect.sseDone ∉ (handleStreamingRequest false envC4).1.effects := by
  decide

/-- C4, amended: on a streaming HIT with non-empty stored content, the
response is exactly one `chat.completion.chunk` per token of
`content.match(/\S+\s*/g)`, in order, each carrying that token as
`delta.content` — but the stream is NOT terminated by a `[DONE]` frame. -/
theorem streaming_hit_chunks_per_token (env : Env) (m : VecMatch) (s : String)
    (toks : List String)
    (hc : ¬ env.query.count = 0)
    (hm : env.query.matches'.head? = some m)
    (hs : ¬ m.score < MATCH_THRESHOLD)
    (hk : env.kv m.id = some s)
    (hne : ¬ s = "")
    (hj : jsMatchAll s = some toks) :
    handleStreamingRequest false env =
      (⟨Effect.vecQuery :: Effect.kvGet m.id :: toks.map Effect.sseChunk, false⟩,
       []) := by
  have hdec : cacheMissDecision env.query false = some false := by
    unfold cacheMissDecision
    rw [if_neg hc, hm]
    simp [hs]
  unfold handleStreamingRequest
  rw [hdec, if_neg (by simp : ¬ (some false = some true))]
  simp only [hm, hk, if_neg hne, hj]

/-- C4, witness: the amended theorem applied to `envC4`, whose cached content
`"Hello world"` tokenizes into `"Hello "` and `"world"`. -/
theorem streaming_hit_chunks_per_token_witness :
    handleStreamingRequest false envC4 =
      (⟨Effect.vecQuery :: Effect.kvGet "v0" ::
          (["Hello ", "world"].map Effect.sseChunk), false⟩, []) :=
  streaming_hit_chunks_per_token envC4 ⟨"v0", mkRat 95 100⟩ "Hello world"
    ["Hello ", "world"] (by decide) (by decide) (by decide) (by decide)
    (by decide) (by decide)

/-- C5, counterexample: when one upstream read carries two coalesced frames
(contents `"a"` then `"b"`), the relay applies `extractWord` per read and
delivers only `"a"`, so the delivered concatenation differs from the
upstream concatenation `"ab"`. -/
theorem wire_fidelity_fails_on_coalesced_reads :
    String.join envC5.upstreamReads = String.join (["a", "b"].map encodeFrame) ∧
    chunkConcat (handleStreamingRequest false envC5).1.effects = "a" ∧
    ("a" : String) ≠ "ab" := by
  decide

/-- C5, amended: wire fidelity on a streaming MISS holds when every upstream
chunk arrives as exactly one read of the encoded form `0:"token"` with a
quote-free token: then the concatenation of the delivered `delta.content`
equals the concatenation of the upstream contents. -/
theorem wire_fidelity_frame_aligned (env : Env) (ts : List String)
    (h0 : env.query.count = 0)
    (hr : env.upstreamReads = ts.map encodeFrame)
    (hq : ∀ t ∈ ts, t.data.all (fun c => c != '"') = true) :
    chunkConcat (handleStreamingRequest false env).1.effects = String.join ts := by
  have hmiss : handleStreamingRequest false env = streamMissResult env := by
    unfold handleStreamingRequest
    simp [cacheMissDecision, h0]
  rw [hmiss]
  have h1 : chunkConcat (streamMissResult env).1.effects =
      chunkConcat (relayChunks env.upstreamReads) := by
    simp [streamMissResult, chunkConcat, List.filterMap_cons]
  rw [h1, chunkConcat_relayChunks, hr, List.map_map]
  have h2 : ts.map (extractWord ∘ encodeFrame) = ts :=
    map_extractWord_encodeFrame ts hq
  rw [h2]

/-- C5, witness: the amended theorem applied to frame-aligned reads carrying
`"Hello "` and `"world"`. -/
theorem wire_fidelity_frame_aligned_witness :
    chunkConcat (handleStreamingRequest false envC5w).1.effects =
      String.join ["Hello ", "world"] :=
  wire_fidelity_frame_aligned envC5w ["Hello ", "world"] (by decide) (by decide)
    (by decide)

/-- C6: with `noCache` false and at least one match, the shared miss
condition is true exactly when the top score is strictly below
`MATCH_THRESHOLD`; a score equal to the threshold yields a HIT. -/
theorem threshold_strictness (q : QueryResult) (m : VecMatch)
    (hc : 1 ≤ q.count) (hm : q.matches'.head? = some m) :
    (cacheMissDecision q false = some true ↔ m.score < MATCH_THRESHOLD) ∧
    (m.score = MATCH_THRESHOLD → cacheMissDecision q false = some false) := by
  have h0 : ¬ q.count = 0 := by omega
  constructor
  · unfold cacheMissDecision
    rw [if_neg h0, hm]
    simp
  · intro he
    unfold cacheMissDecision
    rw [if_neg h0, hm]
    simp [he]

/-- C6, witness: a query whose single match scores exactly the threshold is
decided as a HIT. -/
theorem threshold_strictness_witness :
    (cacheMissDecision ⟨1, [⟨"v0", MATCH_THRESHOLD⟩]⟩ false = some true ↔
      (⟨"v0", MATCH_THRESHOLD⟩ : VecMatch).score < MATCH_THRESHOLD) ∧
    ((⟨"v0", MATCH_THRESHOLD⟩ : VecMatch).score = MATCH_THRESHOLD →
      cacheMissDecision ⟨1, [⟨"v0", MATCH_THRESHOLD⟩]⟩ false = some false) :=
  threshold_strictness ⟨1, [⟨"v0", MATCH_THRESHOLD⟩]⟩ ⟨"v0", MATCH_THRESHOLD⟩
    (by decide) rfl

/-- C7: when the decision is HIT but the stored content is absent (missing
key or empty string), both handlers degrade to a miss that calls upstream
and afterwards write ONLY to the ContentStore — under the fresh id on the
streaming path, under the orphan's own id on the non-streaming path — and
`VectorIndex.Insert` is never called on this degrade path. -/
theorem orphan_repair_no_vector_insert (env : Env) (m : VecMatch)
    (hc : ¬ env.query.count = 0)
    (hm : env.query.matches'.head? = some m)
    (hs : ¬ m.score < MATCH_THRESHOLD)
    (hk : env.kv m.id = none ∨ env.kv m.id = some "") :
    handleStreamingRequest false env = streamDegradeResult m.id env ∧
    Effect.upstreamCall ∈ (streamDegradeResult m.id env).1.effects ∧
    noVecInsert (streamDegradeResult m.id env).2 = true ∧
    putsOnlyTo env.freshId (streamDegradeResult m.id env).2 = true ∧
    handleNonStreamingRequest env = nsRepairResult m.id env ∧
    Effect.upstreamCall ∈ (nsRepairResult m.id env).effects ∧
    noVecInsert (nsRepairResult m.id env).effects = true ∧
    putsOnlyTo m.id (nsRepairResult m.id env).effects = true := by
  have hdec : cacheMissDecision env.query false = some false := by
    unfold cacheMissDecision
    rw [if_neg hc, hm]
    simp [hs]
  refine ⟨?_, ?_, ?_, ?_, ?_, ?_, ?_, ?_⟩
  · unfold handleStreamingRequest
    rw [hdec, if_neg (by simp : ¬ (some false = some true))]
    rcases hk with hk | hk <;> simp [hm, hk]
  · simp [streamDegradeResult, relayChunks]
  · unfold streamDegradeResult handleCacheOrDiscard noVecInsert
    cases env.streamOk <;> simp
  · unfold streamDegradeResult handleCacheOrDiscard putsOnlyTo
    cases env.streamOk <;> simp
  · unfold handleNonStreamingRequest
    rw [hdec, if_neg (by simp : ¬ (some false = some true))]
    rcases hk with hk | hk <;> simp [hm, hk]
  · simp [nsRepairResult]
  · simp [nsRepairResult, noVecInsert]
  · simp [nsRepairResult, putsOnlyTo]

/-- C7, witness: the theorem applied to `envC7` (score 0.95, no stored
content under the matched id `"v0"`). -/
theorem orphan_repair_no_vector_insert_witness :
    handleStreamingRequest false envC7 = streamDegradeResult "v0" envC7 ∧
    Effect.upstreamCall ∈ (streamDegradeResult "v0" envC7).1.effects ∧
    noVecInsert (streamDegradeResult "v0" envC7).2 = true ∧
    putsOnlyTo envC7.freshId (streamDegradeResult "v0" envC7).2 = true ∧
    handleNonStreamingRequest envC7 = nsRepairResult "v0" envC7 ∧
    Effect.upstreamCall ∈ (nsRepairResult "v0" envC7).effects ∧
    noVecInsert (nsRepairResult "v0" envC7).effects = true ∧
    putsOnlyTo "v0" (nsRepairResult "v0" envC7).effects = true :=
  orphan_repair_no_vector_insert envC7 ⟨"v0", mkRat 95 100⟩ (by decide) rfl
    (by decide) (Or.inl rfl)

/-- C8: `parseMessagesToString` equals the spec's reference flattening — the
`"<role>: <content>"` lines joined with `"\n"` in message order; being a pure
function of the message list, it is deterministic. -/
theorem flattening_matches_spec (messages : List ChatMessage) :
    parseMessagesToString messages = specFlattenedPrompt messages := by
  induction messages with
  | nil => rfl
  | cons m rest ih =>
    cases rest with
    | nil => rfl
    | cons m2 rest2 =>
      have step : parseMessagesToString (m :: m2 :: rest2) =
          (m.role ++ ": " ++ m.content) ++ "\n" ++ parseMessagesToString (m2 :: rest2) := by
        unfold parseMessagesToString
        simp only [List.map_cons]
        exact joinWithNewline_cons_cons _ _ _
      rw [step, ih]
      rfl

/-- C9, counterexample: with stored content equal to the EMPTY string the
streaming handler does not reach the synthesis `for`-loop at all — the falsy
check `!cachedContent` sends it down the degrade path, which relays upstream
chunks and a `[DONE]` frame without throwing, contradicting the claim's
"for example the empty string". -/
theorem empty_content_takes_degrade_path :
    Effect.sseChunk "hi" ∈ (handleStreamingRequest false envC9).1.effects ∧
    Effect.sseDone ∈ (handleStreamingRequest false envC9).1.effects ∧
    (handleStreamingRequest false envC9).1.threw = false := by
  decide

/-- C9, amended: on a HIT whose stored content is non-empty but contains no
non-whitespace character, `match(/\S+\s*/g)` is `null` and the iteration
over it throws: the handler performs only the query and the KV read, and
emits neither an SSE chunk nor a `[DONE]` frame.  (Content equal to the
empty string instead takes the degrade-to-miss path.) -/
theorem whitespace_only_hit_throws (env : Env) (m : VecMatch) (s : String)
    (hc : ¬ env.query.count = 0)
    (hm : env.query.matches'.head? = some m)
    (hs : ¬ m.score < MATCH_THRESHOLD)
    (hk : env.kv m.id = some s)
    (hne : ¬ s = "")
    (hws : s.data.all isJsSpace = true) :
    handleStreamingRequest false env =
      (⟨[Effect.vecQuery, Effect.kvGet m.id], true⟩, []) := by
  have hdec : cacheMissDecision env.query false = some false := by
    unfold cacheMissDecision
    rw [if_neg hc, hm]
    simp [hs]
  unfold handleStreamingRequest
  rw [hdec, if_neg (by simp : ¬ (some false = some true))]
  simp only [hm, hk, if_neg hne, jsMatchAll_eq_none_of_all_space s hws]

/-- C9, witness: the amended theorem applied to `envC9w`, whose stored
content is a single space. -/
theorem whitespace_only_hit_throws_witness :
    handleStreamingRequest false envC9w =
      (⟨[Effect.vecQuery, Effect.kvGet "v0"], true⟩, []) :=
  whitespace_only_hit_throws envC9w ⟨"v0", mkRat 95 100⟩ " " (by decide) rfl
    (by decide) (by decide) (by decide) (by decide)

/-- C10: the concatenation of the matches of `/\S+\s*/g` on any character
list equals the list with its leading whitespace removed; hence for cached
content that does not begin with whitespace, the concatenation of the
synthesized tokens equals the content exactly. -/
theorem tokenization_round_trip :
    (∀ l : List Char, (tokens l).flatten = l.dropWhile isJsSpace) ∧
    (∀ (s : String) (toks : List String), jsMatchAll s = some toks →
      s.data.dropWhile isJsSpace = s.data → String.join toks = s) := by
  constructor
  · intro l
    exact tokensGo_flatten l.length l (Nat.le_refl _)
  · intro s toks hj hnw
    cases htok : tokens s.data with
    | nil =>
      unfold jsMatchAll at hj
      rw [htok] at hj
      exact absurd hj (by simp)
    | cons t ts =>
      unfold jsMatchAll at hj
      rw [htok] at hj
      have htoks : toks = (t :: ts).map String.mk := (Option.some.inj hj).symm
      subst htoks
      rw [join_map_mk]
      have hflat : (t :: ts).flatten = s.data.dropWhile isJsSpace := by
        rw [← htok]
        exact tokensGo_flatten s.data.length s.data (Nat.le_refl _)
      rw [hflat, hnw, mk_data]

/-- C10, witness: the round trip evaluated on `"  a b"` (leading whitespace
dropped) and on the cached content `"Hello world"` (reassembled exactly). -/
theorem tokenization_round_trip_witness :
    (tokens ("  a b".data)).flatten = ("  a b".data).dropWhile isJsSpace ∧
    String.join ["Hello ", "world"] = "Hello world" :=
  ⟨tokenization_round_trip.1 "  a b".data,
   tokenization_round_trip.2 "Hello world" ["Hello ", "world"] (by decide)
     (by decide)⟩

end LlmCache
